import Mathlib

/-!
# BigTime watch firmware (`firmware/src/main.cpp`): clock engine and display driver

A shallow embedding of the firmware's clock arithmetic, segment encoder,
display multiplexer and main loop, with the properties proved about them.

Machine integers: the target is an ATmega328 (avr-gcc), where `int` is a
16-bit and `long` a 32-bit two's-complement integer.  Values are `Int`;
every assignment that can leave the range of its variable is wrapped
explicitly (`wrap16`, `wrap32`).  C's `/` and `%` truncate toward zero:
`Int.tdiv` and `Int.tmod`.
-/

namespace BigTime

/-! ## Machine integers -/

/-- Value stored in a 16-bit `int` (two's complement, modulo 2^16). -/
def wrap16 (x : Int) : Int := (x + 32768) % 65536 - 32768

/-- Value stored in a 32-bit `long` (two's complement, modulo 2^32). -/
def wrap32 (x : Int) : Int := (x + 2147483648) % 4294967296 - 2147483648

/-! ## Clock engine -/

/-- The globals `long seconds; int minutes; int hours;`. -/
structure TimeOfDay where
  seconds : Int
  minutes : Int
  hours : Int
  deriving DecidableEq, Repr

/-- Power-on values: `long seconds = 1; int minutes = 0; int hours = 12;`. -/
def powerOn : TimeOfDay := { seconds := 1, minutes := 0, hours := 12 }

/-- The loop `while(hours > 12) hours -= 12;`, at most `fuel` iterations.
The subtraction cannot leave the `int` range since `hours > 12` there. -/
def wrapTwelveLoop : Nat → Int → Int
  | 0, hours => hours
  | fuel + 1, hours => if hours > 12 then wrapTwelveLoop fuel (hours - 12) else hours

/-- The loop `while(hours > 23) hours -= 24;`, at most `fuel` iterations. -/
def wrapTwentyFourLoop : Nat → Int → Int
  | 0, hours => hours
  | fuel + 1, hours => if hours > 23 then wrapTwentyFourLoop fuel (hours - 24) else hours

/-- The hour wraparound `if(TwelveHourMode == true) while... else while...`.
Each iteration lowers `hours` by at least 12, so `hours.toNat` iterations
are more than the loop can take (`hourWrap_eq`). -/
def hourWrap (TwelveHourMode : Bool) (hours : Int) : Int :=
  if TwelveHourMode = true then wrapTwelveLoop hours.toNat hours
  else wrapTwentyFourLoop hours.toNat hours

/-- The block "Update the minutes and hours variables" followed by the hour
wraparound: lines 90-103 of `SIGNAL(TIMER2_OVF_vect)` and, word for word,
lines 518-531 of `setTime`.  `minutes += seconds / 60` is computed in `long`
and converted to `int`. -/
def normalize (TwelveHourMode : Bool) (t : TimeOfDay) : TimeOfDay :=
  let minutes1 := wrap16 (t.minutes + t.seconds.tdiv 60)
  let seconds1 := t.seconds.tmod 60
  let hours1 := wrap16 (t.hours + minutes1.tdiv 60)
  let minutes2 := minutes1.tmod 60
  { seconds := seconds1, minutes := minutes2, hours := hourWrap TwelveHourMode hours1 }

/-- The timer interrupt `SIGNAL(TIMER2_OVF_vect)`: `seconds += 8;` then the
normalization block. -/
def TIMER2_OVF_vect (TwelveHourMode : Bool) (t : TimeOfDay) : TimeOfDay :=
  normalize TwelveHourMode { t with seconds := wrap32 (t.seconds + 8) }

/-- The ranges of a normalized time of day. -/
def InRange (TwelveHourMode : Bool) (t : TimeOfDay) : Prop :=
  0 ≤ t.seconds ∧ t.seconds < 60 ∧ 0 ≤ t.minutes ∧ t.minutes < 60 ∧
    (if TwelveHourMode = true then 1 ≤ t.hours ∧ t.hours ≤ 12
     else 0 ≤ t.hours ∧ t.hours ≤ 23)

instance (m : Bool) (t : TimeOfDay) : Decidable (InRange m t) := by
  unfold InRange; infer_instance

/-! ### Set-time button handling -/

/-- The locals of `setTime`: `int idleMiliseconds; int buttonHold;`. -/
structure SetTimeLocals where
  idleMiliseconds : Int
  buttonHold : Int
  deriving DecidableEq, Repr

/-- The tail of one `setTime` cycle (lines 546-564): the button is sampled
(`pressed` stands for `digitalRead(theButton) == LOW`), `minutes` is advanced
and the idle counter stepped.  Returns the new `minutes` and locals. -/
def setTimeButton (pressed : Bool) (minutes : Int) (l : SetTimeLocals) :
    Int × SetTimeLocals :=
  let r : Int × SetTimeLocals :=
    if pressed = true then
      let buttonHold := wrap16 (l.buttonHold + 1)
      if buttonHold < 10 then
        (wrap16 (minutes + 1), { idleMiliseconds := 0, buttonHold := buttonHold })
      else
        (wrap16 (wrap16 (minutes.tdiv 10 * 10) + 10),
          { idleMiliseconds := 0, buttonHold := buttonHold })
    else
      (minutes, { l with buttonHold := 0 })
  (r.1, { r.2 with idleMiliseconds := wrap16 (r.2.idleMiliseconds + 200) })

/-- Times of day the firmware can hold.  The flag is `true` between the
normalization at the top of a `setTime` cycle and the button sample at its
end (the display sweeps, during which interrupts are enabled), `false`
elsewhere.  The timer interrupt may fire in either phase. -/
inductive Reachable (TwelveHourMode : Bool) : Bool → TimeOfDay → Prop
  | boot : Reachable TwelveHourMode false powerOn
  | tick {inCycle : Bool} {t : TimeOfDay} :
      Reachable TwelveHourMode inCycle t →
      Reachable TwelveHourMode inCycle (TIMER2_OVF_vect TwelveHourMode t)
  | cycleStart {t : TimeOfDay} :
      Reachable TwelveHourMode false t →
      Reachable TwelveHourMode true (normalize TwelveHourMode t)
  | cycleButton {t : TimeOfDay} (pressed : Bool) (l : SetTimeLocals) :
      Reachable TwelveHourMode true t →
      Reachable TwelveHourMode false
        { t with minutes := (setTimeButton pressed t.minutes l).1 }

/-! ## Output pins -/

/-- Logic level `HIGH`. -/
abbrev HIGH : Bool := true
/-- Logic level `LOW`. -/
abbrev LOW : Bool := false
/-- Macro `#define SEGMENT_ON  LOW`: the segments are active-low. -/
abbrev SEGMENT_ON : Bool := LOW
/-- Macro `#define SEGMENT_OFF HIGH`. -/
abbrev SEGMENT_OFF : Bool := HIGH
/-- Macro `#define DIGIT_ON  HIGH`. -/
abbrev DIGIT_ON : Bool := HIGH
/-- Macro `#define DIGIT_OFF  LOW`. -/
abbrev DIGIT_OFF : Bool := LOW

/-- The output pins the firmware drives (the globals `digit1` .. `led`). -/
inductive Pin
  | digit1 | digit2 | digit3 | digit4
  | segA | segB | segC | segD | segE | segF | segG
  | led
  deriving DecidableEq, Repr

/-- Level of every output pin. -/
structure Pins where
  digit1 : Bool
  digit2 : Bool
  digit3 : Bool
  digit4 : Bool
  segA : Bool
  segB : Bool
  segC : Bool
  segD : Bool
  segE : Bool
  segF : Bool
  segG : Bool
  led : Bool
  deriving DecidableEq, Repr

/-- Level of one pin (`digitalRead` of an output pin). -/
def Pins.read (s : Pins) : Pin → Bool
  | .digit1 => s.digit1 | .digit2 => s.digit2 | .digit3 => s.digit3 | .digit4 => s.digit4
  | .segA => s.segA | .segB => s.segB | .segC => s.segC | .segD => s.segD
  | .segE => s.segE | .segF => s.segF | .segG => s.segG
  | .led => s.led

/-- Pin levels after one pin is driven to `v`. -/
def Pins.write (s : Pins) (p : Pin) (v : Bool) : Pins :=
  match p with
  | .digit1 => { s with digit1 := v } | .digit2 => { s with digit2 := v }
  | .digit3 => { s with digit3 := v } | .digit4 => { s with digit4 := v }
  | .segA => { s with segA := v } | .segB => { s with segB := v }
  | .segC => { s with segC := v } | .segD => { s with segD := v }
  | .segE => { s with segE := v } | .segF => { s with segF := v }
  | .segG => { s with segG := v }
  | .led => { s with led := v }

/-- What the hardware does, in order: a pin write, or a busy-wait of `us`
microseconds during which the pins hold the recorded levels. -/
inductive Event
  | write (pin : Pin) (level : Bool)
  | dwell (us : Int) (pins : Pins)
  deriving DecidableEq, Repr

/-- Output side of the hardware: current pin levels and the log of events,
oldest first. -/
structure HW where
  pins : Pins
  trace : List Event
  deriving DecidableEq, Repr

/-- Arduino `digitalWrite(pin, level)`. -/
def digitalWrite (pin : Pin) (level : Bool) (hw : HW) : HW :=
  { pins := hw.pins.write pin level, trace := hw.trace ++ [Event.write pin level] }

/-- Arduino `delayMicroseconds(us)`. -/
def delayMicroseconds (us : Int) (hw : HW) : HW :=
  { hw with trace := hw.trace ++ [Event.dwell us hw.pins] }

/-- The seven segment outputs. -/
def Pin.isSegment : Pin → Bool
  | .segA | .segB | .segC | .segD | .segE | .segF | .segG => true
  | _ => false

open Pin

/-! ## Segment encoder -/

/-- Function `void lightNumber(int numberToDisplay)`: the `switch`, case by case; a
value that is no case label falls through the `switch` (there is no
`default`).  Character labels are given by their codes. -/
def lightNumber (numberToDisplay : Int) (hw : HW) : HW :=
  if numberToDisplay = 0 then
    hw |> digitalWrite segA SEGMENT_ON |> digitalWrite segB SEGMENT_ON
       |> digitalWrite segC SEGMENT_ON |> digitalWrite segD SEGMENT_ON
       |> digitalWrite segE SEGMENT_ON |> digitalWrite segF SEGMENT_ON
  else if numberToDisplay = 1 then
    hw |> digitalWrite segB SEGMENT_ON |> digitalWrite segC SEGMENT_ON
  else if numberToDisplay = 2 then
    hw |> digitalWrite segA SEGMENT_ON |> digitalWrite segB SEGMENT_ON
       |> digitalWrite segD SEGMENT_ON |> digitalWrite segE SEGMENT_ON
       |> digitalWrite segG SEGMENT_ON
  else if numberToDisplay = 3 then
    hw |> digitalWrite segA SEGMENT_ON |> digitalWrite segB SEGMENT_ON
       |> digitalWrite segC SEGMENT_ON |> digitalWrite segD SEGMENT_ON
       |> digitalWrite segG SEGMENT_ON
  else if numberToDisplay = 4 then
    hw |> digitalWrite segB SEGMENT_ON |> digitalWrite segC SEGMENT_ON
       |> digitalWrite segF SEGMENT_ON |> digitalWrite segG SEGMENT_ON
  else if numberToDisplay = 5 then
    hw |> digitalWrite segA SEGMENT_ON |> digitalWrite segC SEGMENT_ON
       |> digitalWrite segD SEGMENT_ON |> digitalWrite segF SEGMENT_ON
       |> digitalWrite segG SEGMENT_ON
  else if numberToDisplay = 6 then
    hw |> digitalWrite segA SEGMENT_ON |> digitalWrite segC SEGMENT_ON
       |> digitalWrite segD SEGMENT_ON |> digitalWrite segE SEGMENT_ON
       |> digitalWrite segF SEGMENT_ON |> digitalWrite segG SEGMENT_ON
  else if numberToDisplay = 7 then
    hw |> digitalWrite segA SEGMENT_ON |> digitalWrite segB SEGMENT_ON
       |> digitalWrite segC SEGMENT_ON
  else if numberToDisplay = 8 then
    hw |> digitalWrite segA SEGMENT_ON |> digitalWrite segB SEGMENT_ON
       |> digitalWrite segC SEGMENT_ON |> digitalWrite segD SEGMENT_ON
       |> digitalWrite segE SEGMENT_ON |> digitalWrite segF SEGMENT_ON
       |> digitalWrite segG SEGMENT_ON
  else if numberToDisplay = 9 then
    hw |> digitalWrite segA SEGMENT_ON |> digitalWrite segB SEGMENT_ON
       |> digitalWrite segC SEGMENT_ON |> digitalWrite segD SEGMENT_ON
       |> digitalWrite segF SEGMENT_ON |> digitalWrite segG SEGMENT_ON
  else if numberToDisplay = 10 then
    hw |> digitalWrite segA SEGMENT_OFF |> digitalWrite segB SEGMENT_OFF
       |> digitalWrite segC SEGMENT_OFF |> digitalWrite segD SEGMENT_OFF
       |> digitalWrite segE SEGMENT_OFF |> digitalWrite segF SEGMENT_OFF
       |> digitalWrite segG SEGMENT_OFF
  else if numberToDisplay = 90 then -- case 'Z'
    hw |> digitalWrite segA SEGMENT_ON |> digitalWrite segB SEGMENT_ON
       |> digitalWrite segC SEGMENT_ON |> digitalWrite segD SEGMENT_ON
       |> digitalWrite segE SEGMENT_ON |> digitalWrite segF SEGMENT_ON
       |> digitalWrite segG SEGMENT_ON
  else if numberToDisplay = 65 then -- case 'A'
    hw |> digitalWrite segA SEGMENT_ON |> digitalWrite segB SEGMENT_ON
       |> digitalWrite segC SEGMENT_ON |> digitalWrite segE SEGMENT_ON
       |> digitalWrite segF SEGMENT_ON |> digitalWrite segG SEGMENT_ON
  else if numberToDisplay = 98 then -- case 'b'
    hw |> digitalWrite segC SEGMENT_ON |> digitalWrite segD SEGMENT_ON
       |> digitalWrite segE SEGMENT_ON |> digitalWrite segF SEGMENT_ON
       |> digitalWrite segG SEGMENT_ON
  else if numberToDisplay = 76 then -- case 'L'
    hw |> digitalWrite segD SEGMENT_ON |> digitalWrite segE SEGMENT_ON
       |> digitalWrite segF SEGMENT_ON
  else if numberToDisplay = 117 then -- case 'u'
    hw |> digitalWrite segC SEGMENT_ON |> digitalWrite segD SEGMENT_ON
       |> digitalWrite segE SEGMENT_ON
  else if numberToDisplay = 103 then -- case 'g'
    hw |> digitalWrite segA SEGMENT_ON |> digitalWrite segB SEGMENT_ON
       |> digitalWrite segC SEGMENT_ON |> digitalWrite segD SEGMENT_ON
       |> digitalWrite segF SEGMENT_ON |> digitalWrite segG SEGMENT_ON
  else if numberToDisplay = 114 then -- case 'r'
    hw |> digitalWrite segE SEGMENT_ON |> digitalWrite segG SEGMENT_ON
  else if numberToDisplay = 82 then -- case 'R'
    hw |> digitalWrite segA SEGMENT_ON |> digitalWrite segB SEGMENT_ON
       |> digitalWrite segE SEGMENT_ON |> digitalWrite segF SEGMENT_ON
  else if numberToDisplay = 83 then -- case 'S'
    hw |> digitalWrite segA SEGMENT_ON |> digitalWrite segC SEGMENT_ON
       |> digitalWrite segD SEGMENT_ON |> digitalWrite segF SEGMENT_ON
       |> digitalWrite segG SEGMENT_ON
  else if numberToDisplay = 75 then -- case 'K'
    hw |> digitalWrite segA SEGMENT_ON |> digitalWrite segC SEGMENT_ON
       |> digitalWrite segE SEGMENT_ON |> digitalWrite segF SEGMENT_ON
       |> digitalWrite segG SEGMENT_ON
  else if numberToDisplay = 110 then -- case 'n'
    hw |> digitalWrite segC SEGMENT_ON |> digitalWrite segE SEGMENT_ON
       |> digitalWrite segG SEGMENT_ON
  else if numberToDisplay = 101 then -- case 'e'
    hw |> digitalWrite segA SEGMENT_ON |> digitalWrite segD SEGMENT_ON
       |> digitalWrite segE SEGMENT_ON |> digitalWrite segF SEGMENT_ON
       |> digitalWrite segG SEGMENT_ON
  else if numberToDisplay = 100 then -- case 'd'
    hw |> digitalWrite segB SEGMENT_ON |> digitalWrite segC SEGMENT_ON
       |> digitalWrite segD SEGMENT_ON |> digitalWrite segE SEGMENT_ON
       |> digitalWrite segG SEGMENT_ON
  else if numberToDisplay = 32 then -- case ' '
    hw |> digitalWrite segA SEGMENT_OFF |> digitalWrite segB SEGMENT_OFF
       |> digitalWrite segC SEGMENT_OFF |> digitalWrite segD SEGMENT_OFF
       |> digitalWrite segE SEGMENT_OFF |> digitalWrite segF SEGMENT_OFF
       |> digitalWrite segG SEGMENT_OFF
  else if numberToDisplay = 121 then -- case 'y'
    hw |> digitalWrite segB SEGMENT_ON |> digitalWrite segC SEGMENT_ON
       |> digitalWrite segD SEGMENT_ON |> digitalWrite segF SEGMENT_ON
       |> digitalWrite segG SEGMENT_ON
  else if numberToDisplay = 111 then -- case 'o'
    hw |> digitalWrite segC SEGMENT_ON |> digitalWrite segD SEGMENT_ON
       |> digitalWrite segE SEGMENT_ON |> digitalWrite segG SEGMENT_ON
  else hw

/-- The case labels of the `switch` in `lightNumber`: 0..9, 10, and the codes
of 'Z','A','b','L','u','g','r','R','S','K','n','e','d',' ','y','o'. -/
def lightNumberCases : List Int :=
  [0, 1, 2, 3, 4, 5, 6, 7, 8, 9, 10,
   90, 65, 98, 76, 117, 103, 114, 82, 83, 75, 110, 101, 100, 32, 121, 111]

/-! ## Display driver -/

/-- The `switch(digit)` of `displayNumber`: energize the line of position
`digit` (1..4). -/
def displayNumberSelect (digit : Nat) (hw : HW) : HW :=
  match digit with
  | 1 => digitalWrite digit1 DIGIT_ON hw
  | 2 => digitalWrite digit2 DIGIT_ON hw
  | 3 => digitalWrite digit3 DIGIT_ON hw
  | 4 => digitalWrite digit4 DIGIT_ON hw
  | _ => hw

/-- The block "Now display this digit" of `displayNumber`: positions 4..2
show the digit, position 1 shows it unless it is zero. -/
def displayNumberLight (digit : Nat) (toDisplay : Int) (hw : HW) : HW :=
  if digit > 1 then lightNumber (toDisplay.tmod 10) hw
  else if digit = 1 then
    (if toDisplay.tmod 10 ≠ 0 then lightNumber (toDisplay.tmod 10) hw else hw)
  else hw

/-- One pass of the body of the `for` loop of `displayNumber` with the loop
variable at `digit`, up to and including "Turn off all digits"
(`toDisplay /= 10` is in `displayNumberLoop`). -/
def displayNumberBody (digit : Nat) (toDisplay : Int) (hw : HW) : HW :=
  let hw := displayNumberSelect digit hw
  let hw := displayNumberLight digit toDisplay hw
  let hw := delayMicroseconds 2000 hw
  let hw := lightNumber 10 hw
  let hw := digitalWrite digit1 DIGIT_OFF hw
  let hw := digitalWrite digit2 DIGIT_OFF hw
  let hw := digitalWrite digit3 DIGIT_OFF hw
  digitalWrite digit4 DIGIT_OFF hw

/-- The loop `for(int digit = 4 ; digit > 0 ; digit--)` of `displayNumber`,
entered with the loop variable at `digit`. -/
def displayNumberLoop : Nat → Int → HW → HW
  | 0, _, hw => hw
  | digit + 1, toDisplay, hw =>
    displayNumberLoop digit (toDisplay.tdiv 10) (displayNumberBody (digit + 1) toDisplay hw)

/-- Function `void displayNumber(int toDisplay, boolean displayColon)`.  The body never
reads `displayColon`. -/
def displayNumber (toDisplay : Int) (_displayColon : Bool) (hw : HW) : HW :=
  displayNumberLoop 4 toDisplay hw

/-- The `switch(digit)` of `displayLetters` (positions 0..3). -/
def displayLettersSelect (digit : Nat) (hw : HW) : HW :=
  match digit with
  | 0 => digitalWrite digit1 DIGIT_ON hw
  | 1 => digitalWrite digit2 DIGIT_ON hw
  | 2 => digitalWrite digit3 DIGIT_ON hw
  | 3 => digitalWrite digit4 DIGIT_ON hw
  | _ => hw

/-- The read `colorName[digit]` as an `int`: the character code; the position right
after the last character holds the terminating NUL. -/
def charAt (colorName : List Char) (digit : Nat) : Int :=
  Int.ofNat (colorName.getD digit (Char.ofNat 0)).toNat

/-- One pass of the body of the `for` loop of `displayLetters` with the loop
variable at `digit`.  "Turn off all digits" writes `digit1`, `digit2` and
`digit3` only. -/
def displayLettersBody (colorName : List Char) (digit : Nat) (hw : HW) : HW :=
  let hw := displayLettersSelect digit hw
  let hw := lightNumber (charAt colorName digit) hw
  let hw := delayMicroseconds 2000 hw
  let hw := lightNumber 10 hw
  let hw := digitalWrite digit1 DIGIT_OFF hw
  let hw := digitalWrite digit2 DIGIT_OFF hw
  digitalWrite digit3 DIGIT_OFF hw

/-- The loop `for(int digit = 0 ; digit < 4 ; digit++)` of `displayLetters`
with `remaining` iterations to go, the loop variable being `4 - remaining`. -/
def displayLettersLoop (colorName : List Char) : Nat → HW → HW
  | 0, hw => hw
  | remaining + 1, hw =>
    displayLettersLoop colorName remaining
      (displayLettersBody colorName (4 - (remaining + 1)) hw)

/-- Function `void displayLetters(char *colorName)`. -/
def displayLetters (colorName : List Char) (hw : HW) : HW :=
  displayLettersLoop colorName 4 (digitalWrite digit4 DIGIT_OFF hw)

/-! ### Observations on the output -/

/-- The pin levels held during each busy-wait of a trace, oldest first. -/
def dwells : List Event → List Pins
  | [] => []
  | Event.write _ _ :: rest => dwells rest
  | Event.dwell _ pins :: rest => pins :: dwells rest

/-- The pin writes of a trace, oldest first. -/
def writes : List Event → List (Pin × Bool)
  | [] => []
  | Event.write pin level :: rest => (pin, level) :: writes rest
  | Event.dwell _ _ :: rest => writes rest

/-- The segments that are lit (at `SEGMENT_ON`), in the order A..G. -/
def litSegments (s : Pins) : List Pin :=
  [segA, segB, segC, segD, segE, segF, segG].filter (fun p => s.read p = SEGMENT_ON)

/-- The digit-select lines that are energized (at `DIGIT_ON`). -/
def energized (s : Pins) : List Pin :=
  [digit1, digit2, digit3, digit4].filter (fun p => s.read p = DIGIT_ON)

/-- All seven segment outputs are at `SEGMENT_OFF`. -/
def SegmentsOff (s : Pins) : Prop :=
  s.segA = SEGMENT_OFF ∧ s.segB = SEGMENT_OFF ∧ s.segC = SEGMENT_OFF ∧
    s.segD = SEGMENT_OFF ∧ s.segE = SEGMENT_OFF ∧ s.segF = SEGMENT_OFF ∧
    s.segG = SEGMENT_OFF

/-- All four digit-select outputs are at `DIGIT_OFF`. -/
def DigitsOff (s : Pins) : Prop :=
  s.digit1 = DIGIT_OFF ∧ s.digit2 = DIGIT_OFF ∧ s.digit3 = DIGIT_OFF ∧
    s.digit4 = DIGIT_OFF

instance (s : Pins) : Decidable (SegmentsOff s) := by unfold SegmentsOff; infer_instance
instance (s : Pins) : Decidable (DigitsOff s) := by unfold DigitsOff; infer_instance

/-- The segments each digit case of `lightNumber` turns on. -/
def digitSegments (d : Int) : List Pin :=
  if d = 0 then [segA, segB, segC, segD, segE, segF]
  else if d = 1 then [segB, segC]
  else if d = 2 then [segA, segB, segD, segE, segG]
  else if d = 3 then [segA, segB, segC, segD, segG]
  else if d = 4 then [segB, segC, segF, segG]
  else if d = 5 then [segA, segC, segD, segF, segG]
  else if d = 6 then [segA, segC, segD, segE, segF, segG]
  else if d = 7 then [segA, segB, segC]
  else if d = 8 then [segA, segB, segC, segD, segE, segF, segG]
  else if d = 9 then [segA, segB, segC, segD, segF, segG]
  else []

/-- Pin levels with everything de-energized and the LED at `led`. -/
def darkPins (led : Bool) : Pins :=
  { digit1 := DIGIT_OFF, digit2 := DIGIT_OFF, digit3 := DIGIT_OFF, digit4 := DIGIT_OFF,
    segA := SEGMENT_OFF, segB := SEGMENT_OFF, segC := SEGMENT_OFF, segD := SEGMENT_OFF,
    segE := SEGMENT_OFF, segF := SEGMENT_OFF, segG := SEGMENT_OFF, led := led }

/-! ## Mode controller -/

/-- The globals the main loop and the interrupt handlers share, with the
output side of the hardware.  The flags are `int`s that only ever hold
`true` or `false`. -/
structure Watch where
  TwelveHourMode : Bool
  show_the_time : Bool
  led_on : Bool
  always_on : Bool
  display_brightness : Int
  time : TimeOfDay
  hw : HW
  deriving DecidableEq, Repr

/-- The three interrupt sources that wake the processor. -/
inductive Interrupt
  | TIMER2_OVF
  | INT0
  | PCINT1
  deriving DecidableEq, Repr

/-- The handlers `SIGNAL(TIMER2_OVF_vect)`, `SIGNAL(INT0_vect)` and
`ISR(PCINT1_vect)` on the shared globals. -/
def isr (i : Interrupt) (w : Watch) : Watch :=
  match i with
  | .TIMER2_OVF => { w with time := TIMER2_OVF_vect w.TwelveHourMode w.time }
  | .INT0 => { w with show_the_time := true }
  | .PCINT1 => { w with led_on := true }

/-- The call `sleep_mode()`: execution stops until the interrupt `wake` fires; its
handler has run when the call returns. -/
def sleep_mode (wake : Interrupt) (w : Watch) : Watch := isr wake w

/-- The value `(hours * 100) + minutes` stored in an `int`. -/
def combinedTime (t : TimeOfDay) : Int := wrap16 (wrap16 (t.hours * 100) + t.minutes)

/-- The `while` loop of `showTime`.  Each element of the list is one pass
made before the deadline `show_time_length`: the levels the two
`digitalRead(theButton)` calls of that pass return. -/
def showTimeLoop (toDisplay : Int) : List (Bool × Bool) → Bool → HW → HW
  | [], _, hw => hw
  | (first, second) :: rest, buttonPreviouslyHit, hw =>
    let hw := displayNumber toDisplay true hw
    if first = LOW then showTimeLoop toDisplay rest true hw
    else if buttonPreviouslyHit = true ∧ second = HIGH then hw
    else showTimeLoop toDisplay rest buttonPreviouslyHit hw

/-- Function `void showTime()`. -/
def showTime (reads : List (Bool × Bool)) (w : Watch) : Watch :=
  { w with hw := showTimeLoop (combinedTime w.time) reads false w.hw }

/-- The loop `for(int x = 0 ; x < 10 ; x++) { displayNumber(combinedTime, colon);
delayMicroseconds(display_brightness); }` of `setTime`, `count` passes. -/
def displaySweeps (toDisplay : Int) (colon : Bool) (display_brightness : Int) :
    Nat → HW → HW
  | 0, hw => hw
  | count + 1, hw =>
    displaySweeps toDisplay colon display_brightness count
      (delayMicroseconds display_brightness (displayNumber toDisplay colon hw))

/-- The `while(idleMiliseconds < 2000)` loop of `setTime`.  The list gives
the level `digitalRead(theButton)` returns at the end of each cycle; the loop
stops when the idle counter reaches 2000 (or the samples run out). -/
def setTimeLoop : List Bool → SetTimeLocals → Watch → Watch
  | [], _, w => w
  | level :: rest, l, w =>
    if l.idleMiliseconds < 2000 then
      let time := normalize w.TwelveHourMode w.time
      let hw := displaySweeps (combinedTime time) true w.display_brightness 10 w.hw
      let hw := displaySweeps (combinedTime time) false w.display_brightness 10 hw
      let r := setTimeButton (level == LOW) time.minutes l
      setTimeLoop rest r.2 { w with time := { time with minutes := r.1 }, hw := hw }
    else w

/-- Function `void setTime(void)`: both locals start at 0. -/
def setTime (reads : List Bool) (w : Watch) : Watch :=
  setTimeLoop reads { idleMiliseconds := 0, buttonHold := 0 } w

/-- The locals of `setTime` after the cycles whose button samples were
`pressed` (oldest first, `true` for a sample at `LOW`).  The locals do not
depend on `minutes`. -/
def setTimeLocalsAfter (pressed : List Bool) : SetTimeLocals :=
  pressed.foldl (fun l p => (setTimeButton p 0 l).2) { idleMiliseconds := 0, buttonHold := 0 }

/-- Number of cycles at the end of the history in which the button was
sampled pressed, back to the last released sample. -/
def consecutivePressed (pressed : List Bool) : Nat :=
  (pressed.reverse.takeWhile (fun p => p)).length

/-- The polling loop of the LED branch of `loop`: one element per
`digitalRead(A2)` made before the 2000 ms deadline. -/
def ledWindow : List Bool → HW → HW
  | [], hw => hw
  | a2 :: rest, hw =>
    ledWindow rest (if a2 = LOW then digitalWrite led (!hw.pins.led) hw else hw)

/-- What the main context reads from its inputs during one pass of `loop`. -/
structure LoopInputs where
  showTimeReads : List (Bool × Bool)
  buttonAfterShow : Bool
  setTimeReads : List Bool
  ledReads : List Bool

/-- The body of `loop()` after `sleep_mode()`.  The debounce waits
(`while(digitalRead(...) == LOW) ;` and `delay(100)`) write nothing and are
taken to end. -/
def loopAwake (inp : LoopInputs) (w : Watch) : Watch :=
  if w.show_the_time = true ∨ w.always_on = true then
    let w := { w with hw := digitalWrite led HIGH w.hw }
    let w := showTime inp.showTimeReads w
    let w := { w with hw := digitalWrite led LOW w.hw }
    let w := if inp.buttonAfterShow = LOW then setTime inp.setTimeReads w else w
    { w with show_the_time := false, led_on := false }
  else if w.led_on = true then
    let w := { w with hw := ledWindow inp.ledReads w.hw }
    { w with led_on := false }
  else w

/-- Function `void loop()`: sleep unless `always_on`, then act on the flags. -/
def loop (wake : Interrupt) (inp : LoopInputs) (w : Watch) : Watch :=
  loopAwake inp (if w.always_on = false then sleep_mode wake w else w)

/-! ### Observations on the LED window -/

/-- The pin writes of `count` successive inversions of the LED output,
starting from the level `level`. -/
def ledInversions (level : Bool) : Nat → List (Pin × Bool)
  | 0 => []
  | count + 1 => (led, !level) :: ledInversions (!level) count

/-- Number of polls of the window in which A2 read `LOW` (pressed). -/
def lowSamples (reads : List Bool) : Nat := reads.count LOW

/-- Number of released-to-pressed transitions in the samples, `held` telling
whether the sample before the first one was at `LOW`. -/
def pressesFrom (held : Bool) : List Bool → Nat
  | [] => 0
  | a2 :: rest =>
    (if a2 = LOW ∧ held = false then 1 else 0) + pressesFrom (decide (a2 = LOW)) rest

/-- Number of detected presses in the samples of the window.  The window is
entered after the wait `while(digitalRead(A2) == LOW) ;`, that is with A2
released. -/
def detectedPresses (reads : List Bool) : Nat := pressesFrom false reads

/-- Some press is held across two consecutive polls. -/
def heldAcrossPolls : List Bool → Bool
  | a :: b :: rest => (decide (a = LOW) && decide (b = LOW)) || heldAcrossPolls (b :: rest)
  | _ => false

/-! ## Arithmetic helpers -/

theorem tdiv_cases (a b : Int) (hb : 0 ≤ b) :
    a.tdiv b = if 0 ≤ a then a / b else -((-a) / b) := by
  split
  · next h => exact Int.tdiv_eq_ediv h hb
  · next h =>
    have h1 : 0 ≤ -a := by omega
    have h2 : a = -(-a) := by omega
    rw [h2, Int.neg_tdiv, Int.tdiv_eq_ediv h1 hb]
    simp

theorem tmod_cases (a b : Int) (hb : 0 ≤ b) :
    a.tmod b = if 0 ≤ a then a % b else -((-a) % b) := by
  rw [Int.tmod_def, tdiv_cases a b hb]
  split
  · rw [Int.emod_def]
  · rw [Int.emod_def]; ring

theorem wrapTwelveLoop_eq (fuel : Nat) (h : Int) (hf : h ≤ 12 + 12 * (fuel : Int)) :
    wrapTwelveLoop fuel h = if h > 12 then (h - 1) % 12 + 1 else h := by
  induction fuel generalizing h with
  | zero =>
    have : ¬ h > 12 := by omega
    simp [wrapTwelveLoop, this]
  | succ n ih =>
    unfold wrapTwelveLoop
    by_cases hh : h > 12
    · rw [if_pos hh, if_pos hh, ih (h - 12) (by push_cast at hf; omega)]
      split <;> omega
    · rw [if_neg hh, if_neg hh]

theorem wrapTwentyFourLoop_eq (fuel : Nat) (h : Int) (hf : h ≤ 23 + 24 * (fuel : Int)) :
    wrapTwentyFourLoop fuel h = if h > 23 then h % 24 else h := by
  induction fuel generalizing h with
  | zero =>
    have : ¬ h > 23 := by omega
    simp [wrapTwentyFourLoop, this]
  | succ n ih =>
    unfold wrapTwentyFourLoop
    by_cases hh : h > 23
    · rw [if_pos hh, if_pos hh, ih (h - 24) (by push_cast at hf; omega)]
      split <;> omega
    · rw [if_neg hh, if_neg hh]

/-- Closed form of the hour wraparound: the fuel `hours.toNat` is enough for
the loop to run to its exit. -/
theorem hourWrap_eq (mode : Bool) (h : Int) :
    hourWrap mode h =
      if mode = true then (if h > 12 then (h - 1) % 12 + 1 else h)
      else (if h > 23 then h % 24 else h) := by
  unfold hourWrap
  cases mode
  · simp only [Bool.false_eq_true, if_false]
    exact wrapTwentyFourLoop_eq _ _ (by omega)
  · simp only [if_true]
    exact wrapTwelveLoop_eq _ _ (by omega)

theorem wrap16_of_fits (x : Int) (h1 : -32768 ≤ x) (h2 : x ≤ 32767) : wrap16 x = x := by
  unfold wrap16; omega

theorem wrap16_range (x : Int) : -32768 ≤ wrap16 x ∧ wrap16 x ≤ 32767 := by
  unfold wrap16; omega

theorem tmod60_bounds (a : Int) : -60 < a.tmod 60 ∧ a.tmod 60 < 60 := by
  rw [tmod_cases a 60 (by decide)]
  split <;> omega

theorem tdiv60_of_small (x : Int) (h1 : -60 < x) (h2 : x < 60) : x.tdiv 60 = 0 := by
  rw [tdiv_cases x 60 (by decide)]
  split <;> omega

theorem tmod60_of_small (x : Int) (h1 : -60 < x) (h2 : x < 60) : x.tmod 60 = x := by
  rw [tmod_cases x 60 (by decide)]
  split <;> omega

/-- The hour wraparound leaves a value at or below the loop bound unchanged,
and its result is at or below the bound: the loop has run to its exit. -/
theorem hourWrap_fixed (mode : Bool) (h : Int) :
    hourWrap mode (hourWrap mode h) = hourWrap mode h ∧
      (h ≤ 32767 → hourWrap mode h ≤ 32767) ∧ (-32768 ≤ h → -32768 ≤ hourWrap mode h) := by
  simp only [hourWrap_eq]
  cases mode
  · simp only [Bool.false_eq_true, if_false]
    refine ⟨?_, ?_, ?_⟩ <;> split <;> (try split) <;> omega
  · simp only [if_true]
    refine ⟨?_, ?_, ?_⟩ <;> split <;> (try split) <;> omega

theorem normalize_eq (mode : Bool) (t : TimeOfDay) :
    normalize mode t =
      { seconds := t.seconds.tmod 60,
        minutes := (wrap16 (t.minutes + t.seconds.tdiv 60)).tmod 60,
        hours := hourWrap mode
          (wrap16 (t.hours + (wrap16 (t.minutes + t.seconds.tdiv 60)).tdiv 60)) } := rfl

/-- Normalization of a non-negative time whose carries fit the 16-bit `int`. -/
theorem normalize_inRange_of_fit (mode : Bool) (t : TimeOfDay)
    (hs : 0 ≤ t.seconds) (hm : 0 ≤ t.minutes)
    (hh : (if mode = true then 1 else 0) ≤ t.hours)
    (hfitM : t.minutes + t.seconds / 60 ≤ 32767)
    (hfitH : t.hours + (t.minutes + t.seconds / 60) / 60 ≤ 32767) :
    InRange mode (normalize mode t) := by
  obtain ⟨s, m, h⟩ := t
  simp only at hs hm hh hfitM hfitH
  have e1 : s.tdiv 60 = s / 60 := Int.tdiv_eq_ediv hs (by decide)
  have e2 : s.tmod 60 = s % 60 := Int.tmod_eq_emod hs (by decide)
  have e3 : wrap16 (m + s / 60) = m + s / 60 := by unfold wrap16; omega
  have hm1 : 0 ≤ m + s / 60 := by omega
  have e4 : (m + s / 60).tdiv 60 = (m + s / 60) / 60 := Int.tdiv_eq_ediv hm1 (by decide)
  have e5 : (m + s / 60).tmod 60 = (m + s / 60) % 60 := Int.tmod_eq_emod hm1 (by decide)
  have e6 : wrap16 (h + (m + s / 60) / 60) = h + (m + s / 60) / 60 := by
    unfold wrap16; split at hh <;> omega
  simp only [normalize_eq, InRange, e1, e2, e3, e4, e5, e6, hourWrap_eq]
  cases mode
  · simp only [Bool.false_eq_true, if_false] at hh ⊢
    split <;> omega
  · simp only [if_true] at hh ⊢
    split <;> omega

/-- The invariant carried by every reachable time of day: seconds and hours
are in range, and minutes are in range except for the value 60 that the
button handling can leave until the next normalization. -/
theorem Reachable.inv {mode inCycle : Bool} {t : TimeOfDay}
    (h : Reachable mode inCycle t) :
    0 ≤ t.seconds ∧ t.seconds < 60 ∧ 0 ≤ t.minutes ∧ t.minutes ≤ 60 ∧
      (inCycle = true → t.minutes < 60) ∧
      (if mode = true then 1 ≤ t.hours ∧ t.hours ≤ 12 else 0 ≤ t.hours ∧ t.hours ≤ 23) := by
  induction h with
  | boot => cases mode <;> simp [powerOn]
  | @tick b t _ ih =>
    obtain ⟨h1, h2, h3, h4, h5, h6⟩ := ih
    have hw : wrap32 (t.seconds + 8) = t.seconds + 8 := by unfold wrap32; omega
    have hr := normalize_inRange_of_fit mode { t with seconds := wrap32 (t.seconds + 8) }
      (by simp only [hw]; omega) h3 (by split at h6 <;> simp_all)
      (by simp only [hw]; omega) (by simp only [hw]; split at h6 <;> omega)
    unfold InRange at hr
    unfold TIMER2_OVF_vect
    obtain ⟨r1, r2, r3, r4, r5⟩ := hr
    exact ⟨r1, r2, r3, by omega, fun _ => r4, r5⟩
  | @cycleStart t _ ih =>
    obtain ⟨h1, h2, h3, h4, h5, h6⟩ := ih
    have hr := normalize_inRange_of_fit mode t h1 h3 (by split at h6 <;> simp_all)
      (by omega) (by split at h6 <;> omega)
    unfold InRange at hr
    obtain ⟨r1, r2, r3, r4, r5⟩ := hr
    exact ⟨r1, r2, r3, by omega, fun _ => r4, r5⟩
  | @cycleButton t pressed l _ ih =>
    obtain ⟨h1, h2, h3, h4, h5, h6⟩ := ih
    have h4 := h5 rfl
    refine ⟨h1, h2, ?_, ?_, by simp, h6⟩
    all_goals
      simp only [setTimeButton]
      have e : t.minutes.tdiv 10 = t.minutes / 10 := Int.tdiv_eq_ediv h3 (by decide)
      have e' : wrap16 (t.minutes / 10 * 10) = t.minutes / 10 * 10 := by
        unfold wrap16; omega
      split
      · split
        · simp only [wrap16]; omega
        · have hc : 0 ≤ t.minutes / 10 ∧ t.minutes / 10 ≤ 5 := by omega
          simp only [e, e']
          rw [wrap16_of_fits _ (by omega) (by omega)]; omega
      · simp only; omega

/-- C1. In TwentyFour mode, from any time with seconds and minutes in [0,60)
and hours in [0,23], one run of the timer interrupt gives the time of day
8 seconds later modulo 24 hours, again inside the ranges; 23:59:55 becomes
00:00:03. -/
theorem TIMER2_OVF_vect_adds_eight_seconds (t : TimeOfDay)
    (hs : 0 ≤ t.seconds ∧ t.seconds < 60) (hm : 0 ≤ t.minutes ∧ t.minutes < 60)
    (hh : 0 ≤ t.hours ∧ t.hours ≤ 23) :
    ((TIMER2_OVF_vect false t).hours * 3600 + (TIMER2_OVF_vect false t).minutes * 60
        + (TIMER2_OVF_vect false t).seconds
      = (t.hours * 3600 + t.minutes * 60 + t.seconds + 8) % 86400) ∧
    (0 ≤ (TIMER2_OVF_vect false t).seconds ∧ (TIMER2_OVF_vect false t).seconds < 60) ∧
    (0 ≤ (TIMER2_OVF_vect false t).minutes ∧ (TIMER2_OVF_vect false t).minutes < 60) ∧
    (0 ≤ (TIMER2_OVF_vect false t).hours ∧ (TIMER2_OVF_vect false t).hours ≤ 23) ∧
    TIMER2_OVF_vect false ⟨55, 59, 23⟩ = ⟨3, 0, 0⟩ := by
  obtain ⟨s, m, h⟩ := t
  simp only at hs hm hh
  have hw : wrap32 (s + 8) = s + 8 := by unfold wrap32; omega
  have e1 : (s + 8).tdiv 60 = (s + 8) / 60 := Int.tdiv_eq_ediv (by omega) (by decide)
  have e2 : (s + 8).tmod 60 = (s + 8) % 60 := Int.tmod_eq_emod (by omega) (by decide)
  have e3 : wrap16 (m + (s + 8) / 60) = m + (s + 8) / 60 := by unfold wrap16; omega
  have e4 : (m + (s + 8) / 60).tdiv 60 = (m + (s + 8) / 60) / 60 :=
    Int.tdiv_eq_ediv (by omega) (by decide)
  have e5 : (m + (s + 8) / 60).tmod 60 = (m + (s + 8) / 60) % 60 :=
    Int.tmod_eq_emod (by omega) (by decide)
  have e6 : wrap16 (h + (m + (s + 8) / 60) / 60) = h + (m + (s + 8) / 60) / 60 := by
    unfold wrap16; omega
  refine ⟨?_, ?_, ?_, ?_, by decide⟩ <;>
    simp only [TIMER2_OVF_vect, normalize_eq, hw, e1, e2, e3, e4, e5, e6, hourWrap_eq,
      Bool.false_eq_true, if_false] <;>
    (try split) <;> omega

/-- Witness for C1: the time 23:59:55 of the claim's own example. -/
theorem TIMER2_OVF_vect_adds_eight_seconds_witness :
    (TIMER2_OVF_vect false ⟨55, 59, 23⟩).hours * 3600
        + (TIMER2_OVF_vect false ⟨55, 59, 23⟩).minutes * 60
        + (TIMER2_OVF_vect false ⟨55, 59, 23⟩).seconds
      = (23 * 3600 + 59 * 60 + 55 + 8) % 86400 :=
  (TIMER2_OVF_vect_adds_eight_seconds ⟨55, 59, 23⟩ (by decide) (by decide) (by decide)).1

/-- C2 (refuted as stated). The state seconds = 60, minutes = 32767, hours = 1
meets the claim's hypotheses in Twelve mode, but the carry into the 16-bit
`minutes` wraps to -32768: normalization gives minutes = -8 and hours = -545,
outside [0,60) and [1,12]. -/
theorem normalize_range_fails_on_int_overflow :
    (0 : Int) ≤ (60 : Int) ∧ (0 : Int) ≤ (32767 : Int) ∧ (1 : Int) ≤ (1 : Int) ∧
      normalize true ⟨60, 32767, 1⟩ = ⟨0, -8, -545⟩ ∧
      ¬ InRange true (normalize true ⟨60, 32767, 1⟩) := by
  decide

/-- C2 (amended). For every state with seconds >= 0, minutes >= 0 and
hours >= 1 (Twelve) or >= 0 (TwentyFour) whose two carries fit the 16-bit
`int` (minutes + seconds/60 <= 32767 and hours + (minutes + seconds/60)/60
<= 32767), normalization yields seconds and minutes in [0,60) and hours in
[1,12] (Twelve) or [0,23] (TwentyFour).  And every state reachable from the
power-on default by timer interrupts and set-time cycles is in these ranges
after normalization and after the timer interrupt. -/
theorem normalize_range (mode : Bool) (t : TimeOfDay)
    (hs : 0 ≤ t.seconds) (hm : 0 ≤ t.minutes)
    (hh : (if mode = true then 1 else 0) ≤ t.hours)
    (hfitM : t.minutes + t.seconds / 60 ≤ 32767)
    (hfitH : t.hours + (t.minutes + t.seconds / 60) / 60 ≤ 32767) :
    InRange mode (normalize mode t) ∧
      ∀ (inCycle : Bool) (r : TimeOfDay), Reachable mode inCycle r →
        InRange mode (normalize mode r) ∧ InRange mode (TIMER2_OVF_vect mode r) := by
  refine ⟨normalize_inRange_of_fit mode t hs hm hh hfitM hfitH, ?_⟩
  intro inCycle r hr
  obtain ⟨h1, h2, h3, h4, h5, h6⟩ := hr.inv
  refine ⟨normalize_inRange_of_fit mode r h1 h3 (by split at h6 <;> simp_all) (by omega)
    (by split at h6 <;> omega), ?_⟩
  have hw : wrap32 (r.seconds + 8) = r.seconds + 8 := by unfold wrap32; omega
  unfold TIMER2_OVF_vect
  exact normalize_inRange_of_fit mode _ (by simp only [hw]; omega) h3
    (by split at h6 <;> simp_all) (by simp only [hw]; omega)
    (by simp only [hw]; split at h6 <;> omega)

/-- Witness for C2: the source comment's example, seconds = 2317, minutes = 58,
hours = 12 in Twelve mode. -/
theorem normalize_range_witness : InRange true (normalize true ⟨2317, 58, 12⟩) :=
  (normalize_range true ⟨2317, 58, 12⟩ (by decide) (by decide) (by decide) (by decide)
    (by decide)).1

/-- C3. Normalization is idempotent in both modes: normalizing an already
normalized time of day changes nothing.  It holds for every seconds, minutes
and hours value, in particular for every non-negative seconds value. -/
theorem normalize_idempotent (mode : Bool) (t : TimeOfDay) :
    normalize mode (normalize mode t) = normalize mode t := by
  obtain ⟨s, m, h⟩ := t
  obtain ⟨bs1, bs2⟩ := tmod60_bounds s
  obtain ⟨bm1, bm2⟩ := tmod60_bounds (wrap16 (m + s.tdiv 60))
  obtain ⟨hfix, hhi, hlo⟩ :=
    hourWrap_fixed mode (wrap16 (h + (wrap16 (m + s.tdiv 60)).tdiv 60))
  obtain ⟨br1, br2⟩ := wrap16_range (h + (wrap16 (m + s.tdiv 60)).tdiv 60)
  simp only [normalize_eq]
  rw [tdiv60_of_small _ bs1 bs2, tmod60_of_small _ bs1 bs2, Int.add_zero,
    wrap16_of_fits _ (by omega) (by omega), tdiv60_of_small _ bm1 bm2,
    tmod60_of_small _ bm1 bm2, Int.add_zero,
    wrap16_of_fits _ (hlo br1) (hhi br2), hfix]

/-! ## Display driver lemmas -/

theorem dwells_append (a b : List Event) : dwells (a ++ b) = dwells a ++ dwells b := by
  induction a with
  | nil => rfl
  | cons e rest ih => cases e <;> simp [dwells, ih]

theorem writes_append (a b : List Event) : writes (a ++ b) = writes a ++ writes b := by
  induction a with
  | nil => rfl
  | cons e rest ih => cases e <;> simp [writes, ih]

/-- A value that is no case label falls through the `switch`: nothing is
written. -/
theorem lightNumber_other (n : Int) (hw : HW) (h : n ∉ lightNumberCases) :
    lightNumber n hw = hw := by
  simp only [lightNumberCases, List.mem_cons, List.mem_singleton, not_or, List.not_mem_nil,
    or_false] at h
  obtain ⟨h0, h1, h2, h3, h4, h5, h6, h7, h8, h9, h10, h11, h12, h13, h14, h15, h16, h17,
    h18, h19, h20, h21, h22, h23, h24, h25, h26⟩ := h
  unfold lightNumber
  rw [if_neg h0, if_neg h1, if_neg h2, if_neg h3, if_neg h4, if_neg h5, if_neg h6, if_neg h7,
    if_neg h8, if_neg h9, if_neg h10, if_neg h11, if_neg h12, if_neg h13, if_neg h14,
    if_neg h15, if_neg h16, if_neg h17, if_neg h18, if_neg h19, if_neg h20, if_neg h21,
    if_neg h22, if_neg h23, if_neg h24, if_neg h25, if_neg h26]

/-- The letter case labels are the character codes of
'Z','A','b','L','u','g','r','R','S','K','n','e','d',' ','y','o'. -/
theorem lightNumberCases_letters :
    lightNumberCases.drop 11 =
      "ZAbLugrRSKned yo".toList.map (fun c => Int.ofNat c.toNat) := by
  decide

/-- Whatever `lightNumber` does is a sequence of writes to segment pins. -/
theorem lightNumber_writes_segments (P : HW → Prop) (n : Int) (hw : HW) (h0 : P hw)
    (hstep : ∀ (h : HW) (s : Pin) (v : Bool),
      s.isSegment = true → P h → P (digitalWrite s v h)) :
    P (lightNumber n hw) := by
  by_cases hm : n ∈ lightNumberCases
  · simp only [lightNumberCases, List.mem_cons, List.mem_singleton, List.not_mem_nil,
      or_false] at hm
    rcases hm with rfl | rfl | rfl | rfl | rfl | rfl | rfl | rfl | rfl | rfl | rfl | rfl |
      rfl | rfl | rfl | rfl | rfl | rfl | rfl | rfl | rfl | rfl | rfl | rfl | rfl | rfl | rfl
    all_goals (repeat (first | (refine hstep _ _ _ ?_ ?_; · rfl) | exact h0))
  · rw [lightNumber_other n hw hm]; exact h0

/-- The encoder `lightNumber` leaves the digit-select lines and the LED alone and never
waits. -/
theorem lightNumber_frame (n : Int) (hw : HW) :
    (lightNumber n hw).pins.digit1 = hw.pins.digit1 ∧
    (lightNumber n hw).pins.digit2 = hw.pins.digit2 ∧
    (lightNumber n hw).pins.digit3 = hw.pins.digit3 ∧
    (lightNumber n hw).pins.digit4 = hw.pins.digit4 ∧
    (lightNumber n hw).pins.led = hw.pins.led ∧
    dwells (lightNumber n hw).trace = dwells hw.trace := by
  refine lightNumber_writes_segments
    (fun h => h.pins.digit1 = hw.pins.digit1 ∧ h.pins.digit2 = hw.pins.digit2 ∧
      h.pins.digit3 = hw.pins.digit3 ∧ h.pins.digit4 = hw.pins.digit4 ∧
      h.pins.led = hw.pins.led ∧ dwells h.trace = dwells hw.trace) n hw
    ⟨rfl, rfl, rfl, rfl, rfl, rfl⟩ ?_
  intro h s v hs hP
  cases s <;> simp [Pin.isSegment] at hs <;>
    simpa [digitalWrite, Pins.write, dwells_append, dwells] using hP

/-- The call `lightNumber(10)` puts all seven segments at `SEGMENT_OFF`. -/
theorem lightNumber_ten_pins (hw : HW) :
    (lightNumber 10 hw).pins =
      { hw.pins with segA := SEGMENT_OFF, segB := SEGMENT_OFF, segC := SEGMENT_OFF,
                     segD := SEGMENT_OFF, segE := SEGMENT_OFF, segF := SEGMENT_OFF,
                     segG := SEGMENT_OFF } := rfl

/-- On a cell whose segments are all off, a digit case of `lightNumber`
lights exactly the segments of that digit. -/
theorem lightNumber_digit (d : Int) (hw : HW) (h0 : 0 ≤ d) (h9 : d ≤ 9)
    (hoff : SegmentsOff hw.pins) :
    litSegments (lightNumber d hw).pins = digitSegments d := by
  obtain ⟨a, b, c, e, f, g, k⟩ := hoff
  interval_cases d <;>
    simp [lightNumber, digitSegments, litSegments, digitalWrite, Pins.write, Pins.read,
      a, b, c, e, f, g, k]

theorem segmentsOff_select (digit : Nat) (hw : HW) (hoff : SegmentsOff hw.pins) :
    SegmentsOff (displayNumberSelect digit hw).pins := by
  unfold displayNumberSelect
  split <;> exact hoff

theorem displayNumberSelect_frame (digit : Nat) (hw : HW) :
    (displayNumberSelect digit hw).pins.led = hw.pins.led ∧
      dwells (displayNumberSelect digit hw).trace = dwells hw.trace := by
  unfold displayNumberSelect
  split <;> simp [digitalWrite, Pins.write, dwells_append, dwells]

theorem displayNumberLight_frame (digit : Nat) (v : Int) (hw : HW) :
    (displayNumberLight digit v hw).pins.digit1 = hw.pins.digit1 ∧
    (displayNumberLight digit v hw).pins.digit2 = hw.pins.digit2 ∧
    (displayNumberLight digit v hw).pins.digit3 = hw.pins.digit3 ∧
    (displayNumberLight digit v hw).pins.digit4 = hw.pins.digit4 ∧
    (displayNumberLight digit v hw).pins.led = hw.pins.led ∧
    dwells (displayNumberLight digit v hw).trace = dwells hw.trace := by
  unfold displayNumberLight
  split_ifs <;> first | exact lightNumber_frame _ _ | exact ⟨rfl, rfl, rfl, rfl, rfl, rfl⟩

theorem litSegments_of_off (s : Pins) (hoff : SegmentsOff s) : litSegments s = [] := by
  obtain ⟨a, b, c, e, f, g, k⟩ := hoff
  simp [litSegments, Pins.read, a, b, c, e, f, g, k]

theorem displayNumberLight_lit (digit : Nat) (v : Int) (hw : HW)
    (hoff : SegmentsOff hw.pins) (h0 : 0 ≤ v.tmod 10) (h9 : v.tmod 10 ≤ 9) :
    litSegments (displayNumberLight digit v hw).pins =
      if digit > 1 then digitSegments (v.tmod 10)
      else if digit = 1 ∧ v.tmod 10 ≠ 0 then digitSegments (v.tmod 10)
      else [] := by
  unfold displayNumberLight
  by_cases c1 : digit > 1
  · rw [if_pos c1, if_pos c1]; exact lightNumber_digit _ _ h0 h9 hoff
  · rw [if_neg c1, if_neg c1]
    by_cases c2 : digit = 1
    · rw [if_pos c2]
      by_cases c3 : v.tmod 10 ≠ 0
      · rw [if_pos c3, if_pos ⟨c2, c3⟩]; exact lightNumber_digit _ _ h0 h9 hoff
      · rw [if_neg c3, if_neg (fun h => c3 h.2)]; exact litSegments_of_off _ hoff
    · rw [if_neg c2, if_neg (fun h => c2 h.1)]; exact litSegments_of_off _ hoff

/-- Every pass of the `displayNumber` loop body ends with everything
de-energized. -/
theorem displayNumberBody_pins (digit : Nat) (v : Int) (hw : HW) :
    (displayNumberBody digit v hw).pins = darkPins hw.pins.led := by
  have h1 := (displayNumberLight_frame digit v (displayNumberSelect digit hw)).2.2.2.2.1
  have h2 := (displayNumberSelect_frame digit hw).1
  simp only [displayNumberBody, digitalWrite, Pins.write, lightNumber_ten_pins,
    delayMicroseconds, darkPins, h1, h2]

/-- Every pass of the `displayNumber` loop body waits once, with the pin
levels reached after the "Now display this digit" block. -/
theorem displayNumberBody_dwells (digit : Nat) (v : Int) (hw : HW) :
    dwells (displayNumberBody digit v hw).trace =
      dwells hw.trace ++ [(displayNumberLight digit v (displayNumberSelect digit hw)).pins] := by
  have h1 := (displayNumberLight_frame digit v (displayNumberSelect digit hw)).2.2.2.2.2
  have h2 := (displayNumberSelect_frame digit hw).2
  simp only [displayNumberBody, digitalWrite, dwells_append, dwells, List.append_nil]
  rw [(lightNumber_frame 10 _).2.2.2.2.2]
  simp only [delayMicroseconds, dwells_append, dwells, h1, h2]

theorem energized_light (digit : Nat) (v : Int) (hw : HW) :
    energized (displayNumberLight digit v hw).pins = energized hw.pins := by
  obtain ⟨f1, f2, f3, f4, -, -⟩ := displayNumberLight_frame digit v hw
  simp only [energized, List.filter_cons, List.filter_nil, Pins.read, f1, f2, f3, f4]

theorem displayNumberLoop_pins (k : Nat) (v : Int) (hw : HW) :
    (displayNumberLoop (k + 1) v hw).pins = darkPins hw.pins.led := by
  induction k generalizing v hw with
  | zero => simp only [displayNumberLoop, displayNumberBody_pins]
  | succ n ih =>
    rw [displayNumberLoop, ih, displayNumberBody_pins]
    rfl

theorem segmentsOff_darkPins (l : Bool) : SegmentsOff (darkPins l) := by
  simp [SegmentsOff, darkPins]

theorem energized_dark_select (l : Bool) :
    energized ((darkPins l).write digit3 DIGIT_ON) = [digit3] ∧
    energized ((darkPins l).write digit2 DIGIT_ON) = [digit2] ∧
    energized ((darkPins l).write digit1 DIGIT_ON) = [digit1] := by
  cases l <;> decide

/-- The four waits of one `displayNumber` sweep: positions 4, 3, 2, 1 in this
order, each with the levels reached after its "Now display this digit"
block. -/
theorem displayNumber_dwells (v : Int) (colon : Bool) (hw : HW) :
    dwells (displayNumber v colon hw).trace = dwells hw.trace ++
      [(displayNumberLight 4 v (displayNumberSelect 4 hw)).pins,
       (displayNumberLight 3 (v.tdiv 10)
          (displayNumberSelect 3 (displayNumberBody 4 v hw))).pins,
       (displayNumberLight 2 ((v.tdiv 10).tdiv 10)
          (displayNumberSelect 2
            (displayNumberBody 3 (v.tdiv 10) (displayNumberBody 4 v hw)))).pins,
       (displayNumberLight 1 (((v.tdiv 10).tdiv 10).tdiv 10)
          (displayNumberSelect 1
            (displayNumberBody 2 ((v.tdiv 10).tdiv 10)
              (displayNumberBody 3 (v.tdiv 10) (displayNumberBody 4 v hw))))).pins] := by
  simp only [displayNumber, displayNumberLoop, displayNumberBody_dwells, List.append_assoc,
    List.singleton_append, List.cons_append, List.nil_append]

/-- What a position shows when the sweep reaches it with everything
de-energized: only its own line is energized. -/
theorem displayNumber_position (digit : Nat) (line : Pin) (d : Int) (hw : HW)
    (hdark : hw.pins = darkPins hw.pins.led)
    (hline : (displayNumberSelect digit hw).pins = hw.pins.write line DIGIT_ON)
    (hl : line = digit3 ∨ line = digit2 ∨ line = digit1)
    (h0 : 0 ≤ d.tmod 10) (h9 : d.tmod 10 ≤ 9) :
    energized (displayNumberLight digit d (displayNumberSelect digit hw)).pins = [line] ∧
    litSegments (displayNumberLight digit d (displayNumberSelect digit hw)).pins =
      if digit > 1 then digitSegments (d.tmod 10)
      else if digit = 1 ∧ d.tmod 10 ≠ 0 then digitSegments (d.tmod 10)
      else [] := by
  constructor
  · rw [energized_light, hline, hdark]
    obtain ⟨a, b, c⟩ := energized_dark_select hw.pins.led
    rcases hl with rfl | rfl | rfl <;> assumption
  · exact displayNumberLight_lit digit d _
      (segmentsOff_select digit hw (by rw [hdark]; exact segmentsOff_darkPins _)) h0 h9

/-- C4 (refuted as stated). With all segments off on entry but digit1
already energized, the first wait of `displayNumber(215, true)` has digit1
energized next to digit4 while the segments of the ones digit 5 are lit: the
most-significant position shows a 5 there, not a blank. -/
theorem displayNumber_stray_line_shows_ones_digit :
    SegmentsOff ((darkPins false).write digit1 DIGIT_ON) ∧
      (dwells (displayNumber 215 true ⟨(darkPins false).write digit1 DIGIT_ON, []⟩).trace).map
          (fun f => (energized f, litSegments f)) =
        [([digit1, digit4], [segA, segC, segD, segF, segG]), ([digit3], [segB, segC]),
         ([digit2], [segA, segB, segD, segE, segG]), ([digit1], [])] := by
  decide

/-- C4 (amended). Leading-zero suppression in `displayNumber`: for every value
v in 0..9999 and either colon flag, entered with all segments off and digit1,
digit2 and digit3 de-energized, the sweep waits four times, each time with
exactly one digit-select line energized: digit4 showing the ones digit, then
digit3 showing the tens digit, then digit2 showing the hundreds digit (zeros
in these three positions are drawn), then digit1 showing the thousands digit
if it is non-zero and no segment at all if it is zero. -/
theorem displayNumber_leading_zero (v : Int) (colon : Bool) (hw : HW) (hv0 : 0 ≤ v)
    (hv1 : v ≤ 9999) (hoff : SegmentsOff hw.pins)
    (hd1 : hw.pins.digit1 = DIGIT_OFF) (hd2 : hw.pins.digit2 = DIGIT_OFF)
    (hd3 : hw.pins.digit3 = DIGIT_OFF) :
    (dwells (displayNumber v colon hw).trace).map (fun f => (energized f, litSegments f)) =
      (dwells hw.trace).map (fun f => (energized f, litSegments f)) ++
        [([digit4], digitSegments (v % 10)),
         ([digit3], digitSegments (v / 10 % 10)),
         ([digit2], digitSegments (v / 100 % 10)),
         ([digit1], if v / 1000 = 0 then [] else digitSegments (v / 1000))] := by
  have hfirst : energized (hw.pins.write digit4 DIGIT_ON) = [digit4] := by
    simp [energized, Pins.write, Pins.read, hd1, hd2, hd3]
  have e1 : v.tmod 10 = v % 10 := Int.tmod_eq_emod hv0 (by decide)
  have d1 : v.tdiv 10 = v / 10 := Int.tdiv_eq_ediv hv0 (by decide)
  have e2 : (v / 10).tmod 10 = v / 10 % 10 := Int.tmod_eq_emod (by omega) (by decide)
  have d2 : (v / 10).tdiv 10 = v / 100 := by
    rw [Int.tdiv_eq_ediv (by omega) (by decide)]; omega
  have e3 : (v / 100).tmod 10 = v / 100 % 10 := Int.tmod_eq_emod (by omega) (by decide)
  have d3 : (v / 100).tdiv 10 = v / 1000 := by
    rw [Int.tdiv_eq_ediv (by omega) (by decide)]; omega
  have e4 : (v / 1000).tmod 10 = v / 1000 := by
    rw [Int.tmod_eq_emod (by omega) (by decide)]; omega
  have hA : energized (displayNumberLight 4 v (displayNumberSelect 4 hw)).pins =
        energized (hw.pins.write digit4 DIGIT_ON) ∧
      litSegments (displayNumberLight 4 v (displayNumberSelect 4 hw)).pins =
        digitSegments (v % 10) := by
    constructor
    · rw [energized_light]; rfl
    · rw [displayNumberLight_lit 4 v _ (segmentsOff_select 4 hw hoff) (by omega) (by omega),
        e1]
      rfl
  have hB := displayNumber_position 3 digit3 (v / 10) (displayNumberBody 4 v hw)
    (by rw [displayNumberBody_pins]; rfl) rfl (Or.inl rfl) (by omega) (by omega)
  have hC := displayNumber_position 2 digit2 (v / 100)
    (displayNumberBody 3 (v / 10) (displayNumberBody 4 v hw))
    (by rw [displayNumberBody_pins]; rfl) rfl (Or.inr (Or.inl rfl)) (by omega) (by omega)
  have hD := displayNumber_position 1 digit1 (v / 1000)
    (displayNumberBody 2 (v / 100) (displayNumberBody 3 (v / 10) (displayNumberBody 4 v hw)))
    (by rw [displayNumberBody_pins]; rfl) rfl (Or.inr (Or.inr rfl)) (by omega) (by omega)
  rw [e2] at hB
  rw [e3] at hC
  rw [e4] at hD
  have hD2 : (if 1 > 1 then digitSegments (v / 1000)
      else if 1 = 1 ∧ v / 1000 ≠ 0 then digitSegments (v / 1000) else []) =
      (if v / 1000 = 0 then [] else digitSegments (v / 1000)) := by
    by_cases hz : v / 1000 = 0 <;> simp [hz]
  rw [hD2] at hD
  rw [displayNumber_dwells, d1, d2, d3]
  simp only [List.map_append, List.map_cons, List.map_nil, hA.1, hA.2, hB.1, hB.2, hC.1, hC.2,
    hD.1, hD.2, hfirst]
  rfl

/-- Witness for C4: 215 renders as blank,2,1,5 and 1215 as 1,2,1,5 (listed
from digit4, the ones, to digit1). -/
theorem displayNumber_leading_zero_witness :
    (dwells (displayNumber 215 true ⟨darkPins false, []⟩).trace).map
        (fun f => (energized f, litSegments f)) =
      [([digit4], [segA, segC, segD, segF, segG]), ([digit3], [segB, segC]),
       ([digit2], [segA, segB, segD, segE, segG]), ([digit1], [])] ∧
    (dwells (displayNumber 1215 true ⟨darkPins false, []⟩).trace).map
        (fun f => (energized f, litSegments f)) =
      [([digit4], [segA, segC, segD, segF, segG]), ([digit3], [segB, segC]),
       ([digit2], [segA, segB, segD, segE, segG]), ([digit1], [segB, segC])] :=
  ⟨(displayNumber_leading_zero 215 true ⟨darkPins false, []⟩ (by decide) (by decide)
      (by decide) rfl rfl rfl).trans (by decide),
   (displayNumber_leading_zero 1215 true ⟨darkPins false, []⟩ (by decide) (by decide)
      (by decide) rfl rfl rfl).trans (by decide)⟩

/-- C5. `displayNumber` leaves the display de-energized: for every value,
colon flag and prior pin state, on return all seven segment outputs are at
`SEGMENT_OFF` and all four digit-select outputs at `DIGIT_OFF`. -/
theorem displayNumber_leaves_display_off (toDisplay : Int) (displayColon : Bool) (hw : HW) :
    SegmentsOff (displayNumber toDisplay displayColon hw).pins ∧
      DigitsOff (displayNumber toDisplay displayColon hw).pins := by
  unfold displayNumber
  rw [displayNumberLoop_pins]
  exact ⟨⟨rfl, rfl, rfl, rfl, rfl, rfl, rfl⟩, ⟨rfl, rfl, rfl, rfl⟩⟩

/-! ## `displayLetters` -/

/-- The last pass of the `displayLetters` loop (position 3) energizes digit4
and nothing de-energizes it afterwards. -/
theorem displayLettersBody_three (colorName : List Char) (hw : HW) :
    (displayLettersBody colorName 3 hw).pins =
      { darkPins hw.pins.led with digit4 := DIGIT_ON } := by
  obtain ⟨-, -, -, f4, f5, -⟩ :=
    lightNumber_frame (charAt colorName 3) (digitalWrite digit4 DIGIT_ON hw)
  simp only [digitalWrite, Pins.write] at f4 f5
  simp only [displayLettersBody, displayLettersSelect, lightNumber_ten_pins, digitalWrite,
    Pins.write, delayMicroseconds, f4, f5, darkPins]

/-- C6 (the code departs from the claim). For every text and prior pin state,
`displayLetters` returns with digit4 at `DIGIT_ON`: the loop's "Turn off all
digits" writes digit1, digit2 and digit3 only.  The segments and the other
three digit lines are off. -/
theorem displayLetters_leaves_digit4_on (colorName : List Char) (hw : HW) :
    (displayLetters colorName hw).pins.digit4 = DIGIT_ON ∧
      ¬ DigitsOff (displayLetters colorName hw).pins ∧
      SegmentsOff (displayLetters colorName hw).pins ∧
      (displayLetters colorName hw).pins.digit1 = DIGIT_OFF ∧
      (displayLetters colorName hw).pins.digit2 = DIGIT_OFF ∧
      (displayLetters colorName hw).pins.digit3 = DIGIT_OFF := by
  have h : ∀ x, displayLettersLoop colorName 1 x = displayLettersBody colorName 3 x :=
    fun _ => rfl
  unfold displayLetters
  rw [displayLettersLoop, displayLettersLoop, displayLettersLoop, h,
    displayLettersBody_three]
  simp [DigitsOff, SegmentsOff, darkPins]

/-! ## Segment encoder: undefined symbols -/

/-- C9 (refuted as stated). The symbol 11 is no case of `lightNumber`, and
after `lightNumber(11)` on a cell that shows an 8 the seven segments are still
lit, not off.  Nor does the result depend on the symbol alone:
`lightNumber(1)` on a cell showing 8 leaves more segments lit than on a dark
cell. -/
theorem lightNumber_undefined_symbol_not_blank :
    (11 : Int) ∉ lightNumberCases ∧
      ¬ SegmentsOff (lightNumber 11 (lightNumber 8 ⟨darkPins false, []⟩)).pins ∧
      litSegments (lightNumber 11 (lightNumber 8 ⟨darkPins false, []⟩)).pins =
        [segA, segB, segC, segD, segE, segF, segG] ∧
      (lightNumber 1 (lightNumber 8 ⟨darkPins false, []⟩)).pins ≠
        (lightNumber 1 ⟨darkPins false, []⟩).pins := by
  decide

/-- C9 (amended). For every symbol code that is not one of `lightNumber`'s
cases and every prior state, `lightNumber(symbol)` writes nothing and leaves
every output as it was; so on a cell whose seven segments are off on entry
they are all off afterwards. -/
theorem lightNumber_undefined_symbol (symbol : Int) (hw : HW)
    (h : symbol ∉ lightNumberCases) :
    lightNumber symbol hw = hw ∧
      (SegmentsOff hw.pins → SegmentsOff (lightNumber symbol hw).pins) := by
  rw [lightNumber_other symbol hw h]
  exact ⟨rfl, fun hoff => hoff⟩

/-- Witness for C9: the letter 'X' (code 88) on a dark cell. -/
theorem lightNumber_undefined_symbol_witness :
    lightNumber 88 ⟨darkPins false, []⟩ = ⟨darkPins false, []⟩ :=
  (lightNumber_undefined_symbol 88 ⟨darkPins false, []⟩ (by decide)).1

/-! ## The colon flag -/

theorem displaySweeps_colon (toDisplay display_brightness : Int) (count : Nat) (hw : HW) :
    displaySweeps toDisplay true display_brightness count hw =
      displaySweeps toDisplay false display_brightness count hw := by
  induction count generalizing hw with
  | zero => rfl
  | succ n ih => simp only [displaySweeps, ih]; rfl

/-- C10 (the code departs from the claim). `displayNumber` never reads its
colon flag: for every value and prior state, `displayNumber(v, true)` and
`displayNumber(v, false)` drive identical outputs (same writes, same waits,
same final levels), so the 10 colon-on sweeps of a set-time cycle are
indistinguishable from its 10 colon-off sweeps. -/
theorem displayNumber_ignores_displayColon (toDisplay display_brightness : Int) (hw : HW) :
    displayNumber toDisplay true hw = displayNumber toDisplay false hw ∧
      displaySweeps toDisplay true display_brightness 10 hw =
        displaySweeps toDisplay false display_brightness 10 hw :=
  ⟨rfl, displaySweeps_colon toDisplay display_brightness 10 hw⟩

/-! ## Main loop -/

/-- C8. Tick-only wake: from every state in which `show_the_time`, `led_on`
and `always_on` are all false, a pass of `loop()` woken by the timer
interrupt changes only seconds/minutes/hours (to what the tick handler
computes): the pin levels and the trace of writes and waits are untouched and
both flags stay false.  The same holds for the tick handler followed by the
body of `loop()`. -/
theorem loop_tick_only_wake (inp : LoopInputs) (w : Watch)
    (hshow : w.show_the_time = false) (hled : w.led_on = false)
    (hon : w.always_on = false) :
    loop Interrupt.TIMER2_OVF inp w =
        { w with time := TIMER2_OVF_vect w.TwelveHourMode w.time } ∧
      loopAwake inp (isr Interrupt.TIMER2_OVF w) = isr Interrupt.TIMER2_OVF w ∧
      (loop Interrupt.TIMER2_OVF inp w).hw = w.hw ∧
      writes (loop Interrupt.TIMER2_OVF inp w).hw.trace = writes w.hw.trace ∧
      (loop Interrupt.TIMER2_OVF inp w).show_the_time = false ∧
      (loop Interrupt.TIMER2_OVF inp w).led_on = false ∧
      (loop Interrupt.TIMER2_OVF inp w).always_on = false := by
  have h1 : loop Interrupt.TIMER2_OVF inp w =
      { w with time := TIMER2_OVF_vect w.TwelveHourMode w.time } := by
    simp [loop, loopAwake, sleep_mode, isr, hshow, hled, hon]
  have h2 : loopAwake inp (isr Interrupt.TIMER2_OVF w) = isr Interrupt.TIMER2_OVF w := by
    simp [loopAwake, isr, hshow, hled, hon]
  rw [h1]
  exact ⟨rfl, h2, rfl, rfl, hshow, hled, hon⟩

/-- Witness for C8: the power-on state in Twelve mode, asleep, with a dark
display. -/
theorem loop_tick_only_wake_witness :
    loop Interrupt.TIMER2_OVF ⟨[], HIGH, [], []⟩
        ⟨true, false, false, false, 1500, powerOn, ⟨darkPins false, []⟩⟩ =
      ⟨true, false, false, false, 1500, ⟨9, 0, 12⟩, ⟨darkPins false, []⟩⟩ :=
  (loop_tick_only_wake ⟨[], HIGH, [], []⟩
    ⟨true, false, false, false, 1500, powerOn, ⟨darkPins false, []⟩⟩ rfl rfl rfl).1.trans
    (by decide)

/-! ## Set-time acceleration -/

theorem consecutivePressed_append (history : List Bool) (p : Bool) :
    consecutivePressed (history ++ [p]) = if p = true then consecutivePressed history + 1 else 0 := by
  cases p <;> simp [consecutivePressed]

theorem consecutivePressed_replicate (k : Nat) :
    consecutivePressed (List.replicate k true) = k := by
  induction k with
  | zero => rfl
  | succ n ih => rw [List.replicate_succ', consecutivePressed_append, ih]; rfl

theorem setTimeLocalsAfter_append (history : List Bool) (p : Bool) :
    setTimeLocalsAfter (history ++ [p]) = (setTimeButton p 0 (setTimeLocalsAfter history)).2 := by
  simp [setTimeLocalsAfter]

/-- The locals `setTimeButton` returns do not depend on `minutes`. -/
theorem setTimeButton_locals (p : Bool) (m m' : Int) (l : SetTimeLocals) :
    (setTimeButton p m l).2 = (setTimeButton p m' l).2 := by
  cases p
  · rfl
  · simp only [setTimeButton, if_true]
    split <;> rfl

theorem setTimeButton_buttonHold (p : Bool) (m : Int) (l : SetTimeLocals) :
    (setTimeButton p m l).2.buttonHold = if p = true then wrap16 (l.buttonHold + 1) else 0 := by
  cases p
  · rfl
  · simp only [setTimeButton, if_true]
    split <;> rfl

theorem setTimeButton_minutes (p : Bool) (m : Int) (l : SetTimeLocals) :
    (setTimeButton p m l).1 =
      if p = true then
        (if wrap16 (l.buttonHold + 1) < 10 then wrap16 (m + 1)
         else wrap16 (wrap16 (m.tdiv 10 * 10) + 10))
      else m := by
  cases p
  · rfl
  · simp only [setTimeButton, if_true]
    split <;> rfl

/-- While the count fits the 16-bit `int`, `buttonHold` is the number of
consecutive cycles in which the button was sampled pressed. -/
theorem buttonHold_tracks (history : List Bool) (h : consecutivePressed history ≤ 32767) :
    (setTimeLocalsAfter history).buttonHold = consecutivePressed history := by
  induction history using List.reverseRecOn with
  | nil => rfl
  | append_singleton hist p ih =>
    rw [setTimeLocalsAfter_append, setTimeButton_buttonHold]
    rw [consecutivePressed_append] at h ⊢
    cases p
    · simp
    · simp only [if_true] at h ⊢
      rw [ih (by omega), wrap16_of_fits _ (by omega) (by omega)]
      push_cast; rfl

/-- C7 (refuted as stated). After 32767 consecutive pressed cycles the next
pressed cycle is the 32768th, far beyond 10, but `buttonHold++` leaves the
16-bit `int` range and wraps to a negative value: the cycle takes the
`buttonHold < 10` branch and minutes 46 becomes 47, not 50. -/
theorem setTime_acceleration_fails_past_int_max :
    consecutivePressed (List.replicate 32767 true ++ [true]) = 32768 ∧
      (setTimeButton true 46 (setTimeLocalsAfter (List.replicate 32767 true))).1 = 47 ∧
      (setTimeButton true 46 (setTimeLocalsAfter (List.replicate 32767 true))).2.buttonHold
        = -32768 := by
  have hc : consecutivePressed (List.replicate 32767 true) = 32767 :=
    consecutivePressed_replicate 32767
  have hb := buttonHold_tracks (List.replicate 32767 true) (by rw [hc])
  rw [hc] at hb
  refine ⟨?_, ?_, ?_⟩
  · rw [consecutivePressed_append, hc]; rfl
  · rw [setTimeButton_minutes, hb]; decide
  · rw [setTimeButton_buttonHold, hb]; decide

/-- C7 (amended). In a set-time cycle in which the button is sampled pressed,
let n be the number of consecutive cycles, this one included, in which it was
pressed and m the normalized minutes value in [0,59].  As long as n is at
most 32767 (the largest value the 16-bit counter holds): if n < 10 the cycle
sets minutes to m+1, if n >= 10 it sets minutes to 10*floor(m/10) + 10, and
the counter equals n.  A cycle in which the button is sampled released, after
any history of samples and at any minutes value, leaves minutes unchanged and
resets the counter to 0, the number of consecutive pressed cycles then. -/
theorem setTime_acceleration (history : List Bool) (m : Int) :
    (0 ≤ m → m ≤ 59 → consecutivePressed (history ++ [true]) ≤ 32767 →
      (setTimeButton true m (setTimeLocalsAfter history)).1 =
          (if consecutivePressed (history ++ [true]) < 10 then m + 1
           else 10 * (m / 10) + 10) ∧
        (setTimeButton true m (setTimeLocalsAfter history)).2.buttonHold =
          consecutivePressed (history ++ [true])) ∧
      (setTimeButton false m (setTimeLocalsAfter history)).1 = m ∧
      (setTimeButton false m (setTimeLocalsAfter history)).2.buttonHold = 0 ∧
      consecutivePressed (history ++ [false]) = 0 ∧
      (setTimeButton false m (setTimeLocalsAfter history)).2 =
        setTimeLocalsAfter (history ++ [false]) ∧
      (setTimeButton true m (setTimeLocalsAfter history)).2 =
        setTimeLocalsAfter (history ++ [true]) := by
  refine ⟨?_, ?_, ?_, ?_, ?_, ?_⟩
  · intro hm0 hm1 hn
    rw [consecutivePressed_append] at hn ⊢
    simp only [if_true] at hn ⊢
    have hb := buttonHold_tracks history (by omega)
    have hw : wrap16 ((consecutivePressed history : Int) + 1) = consecutivePressed history + 1 :=
      wrap16_of_fits _ (by omega) (by omega)
    have hd : m.tdiv 10 = m / 10 := Int.tdiv_eq_ediv hm0 (by decide)
    constructor
    · rw [setTimeButton_minutes, hb, hw, hd]
      simp only [if_true]
      by_cases hlt : consecutivePressed history + 1 < 10
      · have hlt' : (consecutivePressed history : Int) + 1 < 10 := by omega
        rw [if_pos hlt, if_pos hlt', wrap16_of_fits _ (by omega) (by omega)]
      · have hlt' : ¬ (consecutivePressed history : Int) + 1 < 10 := by omega
        rw [if_neg hlt, if_neg hlt', wrap16_of_fits (m / 10 * 10) (by omega) (by omega),
          wrap16_of_fits _ (by omega) (by omega)]
        omega
    · rw [setTimeButton_buttonHold, hb, hw]; simp
  · rw [setTimeButton_minutes]; simp
  · rw [setTimeButton_buttonHold]; simp
  · rw [consecutivePressed_append]; simp
  · rw [setTimeLocalsAfter_append]; exact setTimeButton_locals _ _ _ _
  · rw [setTimeLocalsAfter_append]; exact setTimeButton_locals _ _ _ _

/-- Witness for C7: the tenth consecutive pressed cycle at minutes = 46 jumps
to 50, the ninth at minutes = 46 goes to 47. -/
theorem setTime_acceleration_witness :
    (setTimeButton true 46 (setTimeLocalsAfter (List.replicate 9 true))).1 = 50 ∧
      (setTimeButton true 46 (setTimeLocalsAfter (List.replicate 8 true))).1 = 47 :=
  ⟨((setTime_acceleration (List.replicate 9 true) 46).1 (by decide) (by decide)
      (by decide)).1.trans (by decide),
   ((setTime_acceleration (List.replicate 8 true) 46).1 (by decide) (by decide)
      (by decide)).1.trans (by decide)⟩

/-! ## LED toggle window -/

/-- The LED window writes the LED once per sample at `LOW`, each write an
inversion of the level then present. -/
theorem ledWindow_writes (reads : List Bool) (hw : HW) :
    writes (ledWindow reads hw).trace =
      writes hw.trace ++ ledInversions hw.pins.led (lowSamples reads) := by
  induction reads generalizing hw with
  | nil => simp [ledWindow, lowSamples, ledInversions]
  | cons a2 rest ih =>
    cases a2
    · simp only [ledWindow, if_true, ih, lowSamples, List.count_cons_self, ledInversions]
      simp [digitalWrite, writes_append, writes, Pins.write]
    · simp only [ledWindow, Bool.true_eq_false, if_false, ih, lowSamples]
      rw [List.count_cons_of_ne (by decide)]

/-- The LED window never waits with `delayMicroseconds`. -/
theorem ledWindow_dwells (reads : List Bool) (hw : HW) :
    dwells (ledWindow reads hw).trace = dwells hw.trace := by
  induction reads generalizing hw with
  | nil => rfl
  | cons a2 rest ih =>
    cases a2
    · simp only [ledWindow, if_true, ih]
      simp [digitalWrite, dwells_append, dwells]
    · simp only [ledWindow, Bool.true_eq_false, if_false, ih]

/-- The LED ends inverted when the number of samples at `LOW` is odd and as
it was when the number is even; no other pin changes. -/
theorem ledWindow_pins (reads : List Bool) (hw : HW) :
    (ledWindow reads hw).pins =
      hw.pins.write led (if lowSamples reads % 2 = 0 then hw.pins.led else !hw.pins.led) := by
  induction reads generalizing hw with
  | nil => rfl
  | cons a2 rest ih =>
    cases a2
    · simp only [ledWindow, if_true, ih, lowSamples, List.count_cons_self]
      have h : (List.count LOW rest + 1) % 2 = 0 ↔ ¬ (List.count LOW rest % 2 = 0) := by omega
      by_cases hc : List.count LOW rest % 2 = 0
      · rw [if_pos hc, if_neg (by omega)]; rfl
      · rw [if_neg hc, if_pos (by omega)]
        simp [digitalWrite, Pins.write]
    · have hcnt : List.count LOW (true :: rest) = List.count LOW rest :=
        List.count_cons_of_ne (by decide) _
      simp only [ledWindow, Bool.true_eq_false, if_false, ih, lowSamples, hcnt]

/-- There are never more detected presses than samples at `LOW`. -/
theorem pressesFrom_le (held : Bool) (reads : List Bool) :
    pressesFrom held reads ≤ lowSamples reads := by
  induction reads generalizing held with
  | nil => simp [pressesFrom, lowSamples]
  | cons a2 rest ih =>
    have := ih (decide (a2 = LOW))
    cases a2 <;> cases held <;> simp [pressesFrom, lowSamples] at this ⊢ <;> omega

/-- When no press spans two consecutive polls, every sample at `LOW` is a
detected press. -/
theorem pressesFrom_eq (held : Bool) (reads : List Bool)
    (h : heldAcrossPolls reads = false) (h0 : held = true → reads.head? ≠ some LOW) :
    pressesFrom held reads = lowSamples reads := by
  induction reads generalizing held with
  | nil => simp [pressesFrom, lowSamples]
  | cons a2 rest ih =>
    cases rest with
    | nil => cases a2 <;> cases held <;> simp_all [pressesFrom, lowSamples]
    | cons b rest2 =>
      simp only [heldAcrossPolls, Bool.or_eq_false_iff, Bool.and_eq_false_iff] at h
      have := ih (decide (a2 = LOW)) h.2 (by
        intro hh; cases a2 <;> cases b <;> simp_all)
      cases a2 <;> cases held <;> simp_all [pressesFrom, lowSamples]
      omega


/-- When a press spans two consecutive polls (or the first sample continues
a press), there are fewer detected presses than samples at `LOW`. -/
theorem pressesFrom_lt (held : Bool) (reads : List Bool)
    (h : heldAcrossPolls reads = true ∨ (held = true ∧ reads.head? = some LOW)) :
    pressesFrom held reads < lowSamples reads := by
  induction reads generalizing held with
  | nil => simp [heldAcrossPolls] at h
  | cons a2 rest ih =>
    have hle := pressesFrom_le (decide (a2 = LOW)) rest
    cases rest with
    | nil =>
      cases a2 <;> cases held <;> simp_all [heldAcrossPolls, pressesFrom, lowSamples]
    | cons b rest2 =>
      rcases h with h | ⟨h1, h2⟩
      · simp only [heldAcrossPolls, Bool.or_eq_true, Bool.and_eq_true, decide_eq_true_eq] at h
        rcases h with ⟨ha, hb⟩ | h
        · have := ih true (Or.inr ⟨rfl, by simp [hb]⟩)
          subst ha
          cases held <;> simp_all [pressesFrom, lowSamples] <;> omega
        · have := ih (decide (a2 = LOW)) (Or.inl h)
          cases a2 <;> cases held <;> simp_all [pressesFrom, lowSamples] <;> omega
      · subst h1
        simp only [List.head?_cons, Option.some.injEq] at h2
        subst h2
        simp_all [pressesFrom, lowSamples]
        omega

theorem ledInversions_length (level : Bool) (count : Nat) :
    (ledInversions level count).length = count := by
  induction count generalizing level with
  | zero => rfl
  | succ n ih => simp [ledInversions, ih]

/-- C11 (refuted as stated). A single press held across two consecutive polls
(samples LOW, LOW) is one detected press, but the window inverts the LED
twice, HIGH then LOW, and the LED ends at the level it started from; `led_on`
is false afterwards. -/
theorem ledToggle_held_press_inverts_twice :
    detectedPresses [LOW, LOW] = 1 ∧
      writes (loop Interrupt.PCINT1 ⟨[], HIGH, [], [LOW, LOW]⟩
        ⟨true, false, false, false, 1500, powerOn, ⟨darkPins LOW, []⟩⟩).hw.trace =
        [(led, HIGH), (led, LOW)] ∧
      (loop Interrupt.PCINT1 ⟨[], HIGH, [], [LOW, LOW]⟩
        ⟨true, false, false, false, 1500, powerOn, ⟨darkPins LOW, []⟩⟩).hw.pins.led = LOW ∧
      (loop Interrupt.PCINT1 ⟨[], HIGH, [], [LOW, LOW]⟩
        ⟨true, false, false, false, 1500, powerOn, ⟨darkPins LOW, []⟩⟩).led_on = false := by
  decide

/-- C11 (amended). LedToggle inverts the LED once per poll that reads pressed:
in a pass of `loop()` woken by the pin-change interrupt with `show_the_time`
and `always_on` false, for every sequence of samples of A2 polled during the
window the pin writes made are exactly as many successive inversions of the
LED as there are samples at LOW, nothing else is written and nothing waits,
so the LED ends inverted when that number is odd and unchanged when it is
even; afterwards `led_on` is false.  The number of inversions is at least the
number of detected presses and equals it if and only if no press spans two
consecutive polls. -/
theorem ledToggle_inverts_per_low_sample (inp : LoopInputs) (w : Watch)
    (hshow : w.show_the_time = false) (hon : w.always_on = false) :
    writes (loop Interrupt.PCINT1 inp w).hw.trace =
        writes w.hw.trace ++ ledInversions w.hw.pins.led (lowSamples inp.ledReads) ∧
      (ledInversions w.hw.pins.led (lowSamples inp.ledReads)).length =
        lowSamples inp.ledReads ∧
      dwells (loop Interrupt.PCINT1 inp w).hw.trace = dwells w.hw.trace ∧
      (loop Interrupt.PCINT1 inp w).hw.pins =
        w.hw.pins.write led
          (if lowSamples inp.ledReads % 2 = 0 then w.hw.pins.led else !w.hw.pins.led) ∧
      (loop Interrupt.PCINT1 inp w).led_on = false ∧
      detectedPresses inp.ledReads ≤ lowSamples inp.ledReads ∧
      (detectedPresses inp.ledReads = lowSamples inp.ledReads ↔
        heldAcrossPolls inp.ledReads = false) := by
  have hl : loop Interrupt.PCINT1 inp w =
      { w with led_on := false, hw := ledWindow inp.ledReads w.hw } := by
    simp [loop, loopAwake, sleep_mode, isr, hshow, hon]
  rw [hl]
  refine ⟨ledWindow_writes _ _, ledInversions_length _ _, ledWindow_dwells _ _,
    ledWindow_pins _ _, rfl, pressesFrom_le _ _, ?_⟩
  constructor
  · intro heq
    cases hh : heldAcrossPolls inp.ledReads
    · rfl
    · have := pressesFrom_lt false inp.ledReads (Or.inl hh)
      unfold detectedPresses at heq
      omega
  · exact fun h => pressesFrom_eq false _ h (fun hh => absurd hh (by decide))

/-- Witness for C11: one press held across three consecutive polls (samples
HIGH, LOW, LOW, LOW, HIGH) from a dark LED inverts it three times. -/
theorem ledToggle_inverts_per_low_sample_witness :
    writes (loop Interrupt.PCINT1 ⟨[], HIGH, [], [HIGH, LOW, LOW, LOW, HIGH]⟩
      ⟨true, false, false, false, 1500, powerOn, ⟨darkPins LOW, []⟩⟩).hw.trace =
      [(led, HIGH), (led, LOW), (led, HIGH)] :=
  (ledToggle_inverts_per_low_sample ⟨[], HIGH, [], [HIGH, LOW, LOW, LOW, HIGH]⟩
    ⟨true, false, false, false, 1500, powerOn, ⟨darkPins LOW, []⟩⟩ rfl rfl).1.trans
    (by decide)

end BigTime
